import Mathlib

/-!
Verification of the HSID-CNN training loop (train_icvl.py).

The file embeds the training script shallowly:
* numeric scalars (losses, PSNR values, learning rates) are rationals,
  modelling exact real arithmetic of the float computations;
* tensors are lists of rows of rationals;
* the external collaborators (the HSID network forward pass, the
  Adam update performed by loss.backward + optimizer.step, the
  calc_psnr utility, and the data loaders) are abstract parameters
  collected in an environment record;
* Python expressions that can raise (the divisions by len(train_loader)
  and len(data_loader)) are embedded with Option, none meaning the
  exception aborts the run;
* observable actions (logger lines, tensorboard scalars, optimizer and
  scheduler steps, checkpoint saves) are recorded in an event trace.
-/

namespace HsidTrain

/-- Training configuration record: one entry of the TRAIN_CFG table
(train_icvl.py lines 20-39). -/
structure TrainConfig where
  epoch : ℕ
  batch_size : ℕ
  learning_rate : ℚ
  train_dir : String
  test_orig_dir : String
  test_noise_dir : String
  log_dir : String
deriving DecidableEq, Repr

/-- Entry TRAIN_CFG["randga55"] (train_icvl.py lines 21-29); the entry
selected by Trainer.__init__ at line 58. -/
def TRAIN_CFG_randga55 : TrainConfig :=
  { epoch := 100
    batch_size := 16
    learning_rate := 1/1000
    train_dir := "../dncnn-icvl/data/train/orig"
    test_orig_dir := "../dncnn-icvl-2/data/test/orig"
    test_noise_dir := "../dncnn-icvl-2/data/test/randga55"
    log_dir := "saved_models/icvl/randga55" }

/-- Entry TRAIN_CFG["randga95"] (train_icvl.py lines 30-38). -/
def TRAIN_CFG_randga95 : TrainConfig :=
  { epoch := 100
    batch_size := 16
    learning_rate := 1/1000
    train_dir := "../dncnn-icvl/data/train/orig"
    test_orig_dir := "../dncnn-icvl-2/data/test/orig"
    test_noise_dir := "../dncnn-icvl-2/data/test/randga95"
    log_dir := "saved_models/icvl/randga95" }

/-- Milestones of the MultiStepLR scheduler (train_icvl.py line 82). -/
def MILESTONES : List ℕ := [30, 100]

/-- Decay factor gamma of the scheduler (train_icvl.py line 82). -/
def GAMMA : ℚ := 1/10

/-- Effect of one scheduler.step() call placed after the batch loop of
epoch e (train_icvl.py line 117).  MultiStepLR increments its internal
epoch counter to e+1 and multiplies the learning rate by gamma exactly
when the new counter value is a milestone. -/
def schedulerStep (e : ℕ) (lr : ℚ) : ℚ :=
  if (e + 1) ∈ MILESTONES then lr * GAMMA else lr

/-- Learning rate in force during training epoch e: the optimizer starts
from the configured rate (line 80, scheduler constructed with
last_epoch=-1 at line 82, and 0 is not a milestone) and is stepped once
at the end of every epoch (line 117). -/
def lrAt : ℕ → ℚ
  | 0 => TRAIN_CFG_randga55.learning_rate
  | e + 1 => schedulerStep e (lrAt e)

/-- Tensor value: a batch of flattened images, one row per batch item. -/
abbrev Tensor := List (List ℚ)

/-- Elementwise tensor subtraction (train_icvl.py lines 105 and 143). -/
def tSub (a b : Tensor) : Tensor := List.zipWith (List.zipWith (fun x y => x - y)) a b

/-- Sum of squared differences of two rows. -/
def sqDiffSum (a b : List ℚ) : ℚ := (List.zipWith (fun x y => (x - y) * (x - y)) a b).sum

/-- Number of scalar elements of a tensor. -/
def tNumel (a : Tensor) : ℕ := (a.map List.length).sum

/-- nn.MSELoss() with default mean reduction (lines 81, 106, 135, 144):
mean of the squared differences over all elements. -/
def mseLoss (pred target : Tensor) : ℚ :=
  (List.zipWith sqDiffSum pred target).sum / (tNumel pred : ℚ)

/-- One sample batch as delivered by the data loaders: input image,
auxiliary spectral volume, and clean target (lines 100 and 141). -/
structure Batch where
  input_im : Tensor
  input_vol : Tensor
  target_im : Tensor

/-- External collaborators of the training loop, abstracted: the HSID
network forward pass (mode, parameters, inputs to residual), the
gradient/Adam update hidden behind loss.backward and optimizer.step,
the calc_psnr utility (on one image for training line 114, on a whole
array for validation line 149), and the two data loaders with their
lengths. -/
structure Env (M O : Type) where
  trainLen : ℕ
  valLen : ℕ
  forward : Bool → M → Tensor → Tensor → Tensor
  optUpdate : M → O → ℚ → Batch → M × O
  psnrI : List ℚ → List ℚ → ℚ
  psnrT : Tensor → Tensor → ℚ
  trainBatches : ℕ → ℕ → Batch
  valBatches : ℕ → Batch

/-- Observable events of a run, in program order: logger lines (lines
88, 93, 122), mode switches (96, 136), the no_grad region (139),
gradient clearing (103), forward passes, backward passes and optimizer
steps (104, 107, 108), scheduler steps (117), validation batches
(140-150), tensorboard scalars (125-128), the checkpoint comparison
(130) and checkpoint saves (132). -/
inductive Ev (M O : Type) where
  | startLine
  | epochLine (e : ℕ)
  | trainModeEv
  | evalModeEv
  | noGradBeginEv
  | noGradEndEv
  | zeroGradEv
  | forwardEv
  | backwardEv
  | optStepEv (lr : ℚ)
  | schedStepEv (e : ℕ) (newLr : ℚ)
  | valBatchEv (i : ℕ)
  | tbScalarEv (tag : String) (v : ℚ) (e : ℕ)
  | summaryLineEv (e : ℕ) (tl tp vl vp : ℚ)
  | compareEv (e : ℕ) (best vp : ℚ)
  | saveCkptEv (params : M) (opt : O) (e : ℕ)

/-- Mutable state of one run: model parameters and mode, optimizer
state, current learning rate, best validation PSNR so far (line 91),
and the per-epoch training accumulators (lines 97-98). -/
structure RunSt (M O : Type) where
  params : M
  trainingMode : Bool
  opt : O
  lr : ℚ
  best_psnr : ℚ
  train_loss : ℚ
  train_psnr : ℚ

variable {M O : Type}

/-- Best-checkpoint decision of one epoch (lines 130-131): given
best_psnr so far and this epoch's validation PSNR, the new best_psnr
and whether save_train is called. -/
def bestUpdate (best vp : ℚ) : ℚ × Bool :=
  if best < vp then (vp, true) else (best, false)

/-- Body of the training batch loop (lines 100-115): zero_grad, forward
pass, denoised image as input minus residual, MSE loss against the
target, backward and one optimizer step; the scalar loss of the whole
batch and the PSNR of the first batch item are added to the epoch
accumulators. -/
def trainBatch (env : Env M O) (e i : ℕ) (s : RunSt M O) : RunSt M O × List (Ev M O) :=
  let b := env.trainBatches e i
  let noise_res := env.forward s.trainingMode s.params b.input_im b.input_vol
  let denoise_img := tSub b.input_im noise_res
  let loss := mseLoss denoise_img b.target_im
  let po := env.optUpdate s.params s.opt s.lr b
  ({ s with params := po.1, opt := po.2,
            train_loss := s.train_loss + loss,
            train_psnr := s.train_psnr + env.psnrI b.target_im.headI denoise_img.headI },
   [Ev.zeroGradEv, Ev.forwardEv, Ev.backwardEv, Ev.optStepEv s.lr])

/-- Training batch loop of one epoch (lines 99-115) over the batch
indices of the loader. -/
def trainLoop (env : Env M O) (e : ℕ) : List ℕ → RunSt M O → RunSt M O × List (Ev M O)
  | [], s => (s, [])
  | i :: is, s =>
    let r1 := trainBatch env e i s
    let r2 := trainLoop env e is r1.1
    (r2.1, r1.2 ++ r2.2)

/-- Validation batch loop (lines 140-150): forward pass in eval mode,
denoised image, MSE loss and whole-array PSNR accumulated. -/
def validLoop (env : Env M O) (m : M) : List ℕ → ℚ × ℚ → (ℚ × ℚ) × List (Ev M O)
  | [], acc => (acc, [])
  | i :: is, acc =>
    let b := env.valBatches i
    let noise_res := env.forward false m b.input_im b.input_vol
    let denoise_img := tSub b.input_im noise_res
    let loss := mseLoss denoise_img b.target_im
    let r := validLoop env m is (acc.1 + loss, acc.2 + env.psnrT b.target_im denoise_img)
    (r.1, Ev.valBatchEv i :: r.2)

/-- Trainer.valid (lines 134-152): switch the model to eval mode, run
every validation batch under no_grad, then return both accumulators
divided by the number of batches; a division by a zero batch count
raises and is modelled as none. -/
def valid (env : Env M O) (s : RunSt M O) :
    Option (RunSt M O × ℚ × ℚ) × List (Ev M O) :=
  let s1 := { s with trainingMode := false }
  let r := validLoop env s1.params (List.range env.valLen) (0, 0)
  let tr := Ev.evalModeEv :: Ev.noGradBeginEv :: r.2 ++ [Ev.noGradEndEv]
  if env.valLen = 0 then (none, tr)
  else (some (s1, r.1.1 / (env.valLen : ℚ), r.1.2 / (env.valLen : ℚ)), tr)

/-- One iteration of the epoch loop (lines 92-132): epoch logger line,
train mode, accumulator reset, the batch loop, one scheduler step, the
two epoch averages (which raise when the training loader is empty),
the validation pass, the summary line and tensorboard scalars, and the
best-checkpoint comparison. -/
def runEpoch (env : Env M O) (e : ℕ) (s : RunSt M O) :
    Option (RunSt M O) × List (Ev M O) :=
  let s0 : RunSt M O := { s with trainingMode := true, train_loss := 0, train_psnr := 0 }
  let rT := trainLoop env e (List.range env.trainLen) s0
  let s1 := rT.1
  let lrNew := schedulerStep e s1.lr
  let s2 : RunSt M O := { s1 with lr := lrNew }
  let trHead := Ev.epochLine e :: Ev.trainModeEv :: rT.2 ++ [Ev.schedStepEv e lrNew]
  if env.trainLen = 0 then (none, trHead)
  else
    let s3 : RunSt M O := { s2 with
        train_psnr := s2.train_psnr / (env.trainLen : ℚ),
        train_loss := s2.train_loss / (env.trainLen : ℚ) }
    match valid env s3 with
    | (none, trV) => (none, trHead ++ trV)
    | (some (s4, vl, vp), trV) =>
      let trLog := [Ev.summaryLineEv e s4.train_loss s4.train_psnr vl vp,
                    Ev.tbScalarEv "Loss/train" s4.train_loss e,
                    Ev.tbScalarEv "Loss/val" vl e,
                    Ev.tbScalarEv "PSNR/train" s4.train_psnr e,
                    Ev.tbScalarEv "PSNR/val" vp e]
      let bu := bestUpdate s4.best_psnr vp
      let s5 : RunSt M O := { s4 with best_psnr := bu.1 }
      (some s5, trHead ++ trV ++ trLog ++ [Ev.compareEv e s4.best_psnr vp] ++
        (if bu.2 then [Ev.saveCkptEv s4.params s4.opt e] else []))

/-- Epoch loop (line 92), processing k epochs starting at index e; an
epoch whose result is none aborts the run with the trace so far. -/
def runFrom (env : Env M O) : ℕ → ℕ → RunSt M O → Option (RunSt M O) × List (Ev M O)
  | _, 0, s => (some s, [])
  | e, k + 1, s =>
    match runEpoch env e s with
    | (none, tr) => (none, tr)
    | (some s', tr) =>
      let r := runFrom env (e + 1) k s'
      (r.1, tr ++ r.2)

/-- Initial run state (lines 80, 91): learning rate from the
configuration, best_psnr = 0, accumulators 0. -/
def initRunSt (cfg : TrainConfig) (m : M) (o : O) : RunSt M O :=
  { params := m, trainingMode := true, opt := o,
    lr := cfg.learning_rate, best_psnr := 0, train_loss := 0, train_psnr := 0 }

/-- Trainer.train (lines 75-132): the start-of-run logger line followed
by the epoch loop over cfg.epoch epochs. -/
def runTrain (env : Env M O) (cfg : TrainConfig) (m : M) (o : O) :
    Option (RunSt M O) × List (Ev M O) :=
  let r := runFrom env 0 cfg.epoch (initRunSt cfg m o)
  (r.1, Ev.startLine :: r.2)

/-- Value of best_psnr after the epochs whose validation PSNRs are ps:
the fold of the per-epoch update of lines 130-131 starting from the
initialization best_psnr = 0.0 of line 91. -/
def bestFold (ps : List ℚ) : ℚ := ps.foldl (fun b p => (bestUpdate b p).1) 0

/-- Whether the checkpoint write of line 132 fires at epoch i of a run
whose per-epoch validation PSNRs are ps. -/
def writesAt (ps : List ℚ) (i : ℕ) : Bool :=
  (bestUpdate (bestFold (ps.take i)) (ps.getD i 0)).2

/-- Fields of the training configuration record. -/
inductive CfgField
  | epochF
  | batch_sizeF
  | learning_rateF
  | train_dirF
  | test_orig_dirF
  | test_noise_dirF
  | log_dirF
deriving DecidableEq

/-- One observable access to the configuration record during a run,
plus a marker separating Trainer.__init__ from the training itself. -/
inductive CfgOp
  | readAt (f : CfgField)
  | writeAt (f : CfgField)
  | startMark
deriving DecidableEq

/-- Recognizes a mutation of the configuration record. -/
def CfgOp.isWriteOp : CfgOp → Bool
  | .writeAt _ => true
  | _ => false

/-- Configuration accesses performed by Trainer.__init__ (lines
58-67): the log_dir read of line 61, the log_dir redirection of line
62, and the reads of every field by the yaml dump of lines 65-66. -/
def initCfgOps : List CfgOp :=
  [.readAt .log_dirF, .writeAt .log_dirF,
   .readAt .epochF, .readAt .batch_sizeF, .readAt .learning_rateF,
   .readAt .train_dirF, .readAt .test_orig_dirF, .readAt .test_noise_dirF,
   .readAt .log_dirF]

/-- Configuration reads of Trainer.train before the epoch loop: lines
49-51 (called from line 77), 80, 84 and the loop bound of line 92. -/
def trainPreCfgOps : List CfgOp :=
  [.readAt .train_dirF, .readAt .batch_sizeF, .readAt .test_orig_dirF,
   .readAt .test_noise_dirF, .readAt .learning_rateF, .readAt .log_dirF,
   .readAt .epochF]

/-- Configuration reads of one epoch-loop iteration: the epoch-count
reads of lines 94, 95 and 123. -/
def epochCfgOps : List CfgOp :=
  [.readAt .epochF, .readAt .epochF, .readAt .epochF]

/-- Observable configuration accesses of a whole run of n epochs, in
program order. -/
def runCfgOps (n : ℕ) : List CfgOp :=
  initCfgOps ++ [CfgOp.startMark] ++ trainPreCfgOps
    ++ (List.replicate n epochCfgOps).flatten

/-- Configuration used by the run (lines 58-62): the randga55 entry
with only the log-directory field redirected to the freshly created
experiment directory d. -/
def resolvedCfg (d : String) : TrainConfig :=
  { TRAIN_CFG_randga55 with log_dir := d }

/-- Toy batch for concrete instantiations of the run. -/
def constBatch : Batch :=
  { input_im := [[1]], input_vol := [[0]], target_im := [[1]] }

/-- Concrete environment: one training batch and one validation batch
per epoch, a network that always predicts a zero residual, and a PSNR
oracle that reports 0. -/
def envC : Env Unit Unit :=
  { trainLen := 1, valLen := 1,
    forward := fun _ _ _ _ => [[0]],
    optUpdate := fun _ _ _ _ => ((), ()),
    psnrI := fun _ _ => 0,
    psnrT := fun _ _ => 0,
    trainBatches := fun _ _ => constBatch,
    valBatches := fun _ => constBatch }

/-- Concrete environment in which both loaders are empty. -/
def envE : Env Unit Unit :=
  { envC with trainLen := 0, valLen := 0 }

/-- Initial run state of the concrete runs. -/
def stC : RunSt Unit Unit := initRunSt TRAIN_CFG_randga55 () ()

/-- Configuration running for 3 epochs, as in the end-to-end scenario
of the specification. -/
def cfg3 : TrainConfig := { TRAIN_CFG_randga55 with epoch := 3 }

/-- Denoised output of validation batch i (line 143). -/
def valDenoise (env : Env M O) (m : M) (i : ℕ) : Tensor :=
  tSub (env.valBatches i).input_im
    (env.forward false m (env.valBatches i).input_im (env.valBatches i).input_vol)

/-- MSE loss contribution of validation batch i (lines 144, 146). -/
def valLossOf (env : Env M O) (m : M) (i : ℕ) : ℚ :=
  mseLoss (valDenoise env m i) (env.valBatches i).target_im

/-- PSNR contribution of validation batch i (line 149). -/
def valPsnrOf (env : Env M O) (m : M) (i : ℕ) : ℚ :=
  env.psnrT (env.valBatches i).target_im (valDenoise env m i)

/-- State after the training batch loop of epoch e (lines 96-115). -/
def epochTrainSt (env : Env M O) (e : ℕ) (s : RunSt M O) : RunSt M O :=
  (trainLoop env e (List.range env.trainLen)
    { s with trainingMode := true, train_loss := 0, train_psnr := 0 }).1

/-- Trace of the training batch loop of epoch e. -/
def epochTrainTr (env : Env M O) (e : ℕ) (s : RunSt M O) : List (Ev M O) :=
  (trainLoop env e (List.range env.trainLen)
    { s with trainingMode := true, train_loss := 0, train_psnr := 0 }).2

/-- State reaching line 121 of epoch e: scheduler stepped (line 117)
and both training accumulators averaged (lines 119-120). -/
def epochAvgSt (env : Env M O) (e : ℕ) (s : RunSt M O) : RunSt M O :=
  let s1 := epochTrainSt env e s
  { s1 with lr := schedulerStep e s1.lr,
            train_psnr := s1.train_psnr / (env.trainLen : ℚ),
            train_loss := s1.train_loss / (env.trainLen : ℚ) }

/-- Validation loss of epoch e (first return of valid at line 121). -/
def epochValLoss (env : Env M O) (e : ℕ) (s : RunSt M O) : ℚ :=
  ((List.range env.valLen).map (valLossOf env (epochAvgSt env e s).params)).sum
    / (env.valLen : ℚ)

/-- Validation PSNR of epoch e (second return of valid at line 121). -/
def epochValPsnr (env : Env M O) (e : ℕ) (s : RunSt M O) : ℚ :=
  ((List.range env.valLen).map (valPsnrOf env (epochAvgSt env e s).params)).sum
    / (env.valLen : ℚ)

/-- Recognizes the checkpoint-comparison event of line 130. -/
def isCompare : Ev M O → Bool
  | .compareEv _ _ _ => true
  | _ => false

/-- Recognizes an optimizer step (line 108). -/
def isOptStep : Ev M O → Bool
  | .optStepEv _ => true
  | _ => false

/-- Recognizes a scheduler step (line 117). -/
def isSchedStep : Ev M O → Bool
  | .schedStepEv _ _ => true
  | _ => false

/-- Recognizes a line written to the plain-text logger: the start
marker (line 88), the epoch-number line (line 93) and the per-epoch
summary line (line 122). -/
def isLoggerLine : Ev M O → Bool
  | .startLine => true
  | .epochLine _ => true
  | .summaryLineEv _ _ _ _ _ => true
  | _ => false

/-- Recognizes the per-epoch summary line of line 122. -/
def isSummaryLine : Ev M O → Bool
  | .summaryLineEv _ _ _ _ _ => true
  | _ => false

/-- Learning-rate discipline of the default run: optimizer steps use
rate 0.001 or 0.0001 and the scheduler step closing epoch 99 installs
0.00001. -/
def lrOk : Ev M O → Bool
  | .optStepEv lr => lr == 1/1000 || lr == 1/10000
  | .schedStepEv e lr => !(e == 99) || lr == 1/100000
  | _ => true

lemma lrAt_zero : lrAt 0 = 1/1000 := rfl

lemma lrAt_succ (e : ℕ) : lrAt (e + 1) = schedulerStep e (lrAt e) := rfl

lemma schedulerStep_of_milestone (e : ℕ) (h : e + 1 = 30 ∨ e + 1 = 100) (lr : ℚ) :
    schedulerStep e lr = lr * (1/10) := by
  simp only [schedulerStep, MILESTONES, GAMMA, List.mem_cons, List.mem_singleton]
  rw [if_pos]
  tauto

lemma schedulerStep_of_not_milestone (e : ℕ) (h : e + 1 ≠ 30 ∧ e + 1 ≠ 100) (lr : ℚ) :
    schedulerStep e lr = lr := by
  simp only [schedulerStep, MILESTONES, GAMMA, List.mem_cons, List.mem_singleton]
  rw [if_neg]
  tauto

/-- Closed form of the learning-rate schedule. -/
lemma lrAt_closed (e : ℕ) :
    lrAt e = if e < 30 then 1/1000 else if e < 100 then 1/10000 else 1/100000 := by
  induction e with
  | zero => simp [lrAt_zero]
  | succ e ih =>
    rw [lrAt_succ]
    by_cases h30 : e + 1 = 30
    · rw [schedulerStep_of_milestone e (Or.inl h30), ih]
      have he : e = 29 := by omega
      subst he
      norm_num
    · by_cases h100 : e + 1 = 100
      · rw [schedulerStep_of_milestone e (Or.inr h100), ih]
        have he : e = 99 := by omega
        subst he
        norm_num
      · rw [schedulerStep_of_not_milestone e ⟨h30, h100⟩, ih]
        rcases Nat.lt_trichotomy e 29 with h | h | h
        · have : e < 30 ∧ e + 1 < 30 := by omega
          simp [this.1, this.2]
        · exfalso; omega
        · rcases Nat.lt_trichotomy e 99 with h' | h' | h'
          · have h1 : ¬ e < 30 := by omega
            have h2 : ¬ e + 1 < 30 := by omega
            have h3 : e < 100 := by omega
            have h4 : e + 1 < 100 := by omega
            simp [h1, h2, h3, h4]
          · exfalso; omega
          · have h1 : ¬ e < 30 := by omega
            have h2 : ¬ e + 1 < 30 := by omega
            have h3 : ¬ e < 100 := by omega
            have h4 : ¬ e + 1 < 100 := by omega
            simp [h1, h2, h3, h4]

lemma bestUpdate_fst (b p : ℚ) : (bestUpdate b p).1 = max b p := by
  unfold bestUpdate
  by_cases h : b < p
  · simp [h, max_eq_right h.le]
  · simp [h, max_eq_left (le_of_not_lt h)]

lemma bestUpdate_snd (b p : ℚ) : (bestUpdate b p).2 = decide (b < p) := by
  unfold bestUpdate
  by_cases h : b < p <;> simp [h]

lemma bestFold_foldl_max (ps : List ℚ) (b : ℚ) :
    ps.foldl (fun b p => (bestUpdate b p).1) b = ps.foldl max b := by
  induction ps generalizing b with
  | nil => rfl
  | cons p ps ih => simp [List.foldl_cons, bestUpdate_fst, ih]

lemma bestFold_eq (ps : List ℚ) : bestFold ps = ps.foldl max 0 :=
  bestFold_foldl_max ps 0

lemma foldl_max_le_foldl_max (ps : List ℚ) (a b : ℚ) (h : a ≤ b) :
    ps.foldl max a ≤ ps.foldl max b := by
  induction ps generalizing a b with
  | nil => exact h
  | cons p ps ih => exact ih _ _ (max_le_max h le_rfl)

lemma le_foldl_max (ps : List ℚ) (b : ℚ) : b ≤ ps.foldl max b := by
  induction ps generalizing b with
  | nil => exact le_rfl
  | cons p ps ih => exact le_trans (le_max_left b p) (ih _)

lemma bestFold_nonneg (ps : List ℚ) : 0 ≤ bestFold ps := by
  rw [bestFold_eq]
  exact le_foldl_max ps 0

lemma trainBatch_best (env : Env M O) (e i : ℕ) (s : RunSt M O) :
    (trainBatch env e i s).1.best_psnr = s.best_psnr := rfl

lemma trainBatch_lr (env : Env M O) (e i : ℕ) (s : RunSt M O) :
    (trainBatch env e i s).1.lr = s.lr := rfl

lemma trainBatch_mode (env : Env M O) (e i : ℕ) (s : RunSt M O) :
    (trainBatch env e i s).1.trainingMode = s.trainingMode := rfl

lemma trainLoop_best (env : Env M O) (e : ℕ) (l : List ℕ) (s : RunSt M O) :
    (trainLoop env e l s).1.best_psnr = s.best_psnr := by
  induction l generalizing s with
  | nil => rfl
  | cons i is ih => rw [trainLoop, ih, trainBatch_best]

lemma trainLoop_lr (env : Env M O) (e : ℕ) (l : List ℕ) (s : RunSt M O) :
    (trainLoop env e l s).1.lr = s.lr := by
  induction l generalizing s with
  | nil => rfl
  | cons i is ih => rw [trainLoop, ih, trainBatch_lr]

lemma trainLoop_mode (env : Env M O) (e : ℕ) (l : List ℕ) (s : RunSt M O) :
    (trainLoop env e l s).1.trainingMode = s.trainingMode := by
  induction l generalizing s with
  | nil => rfl
  | cons i is ih => rw [trainLoop, ih, trainBatch_mode]

/-- Every event of the training batch loop is one of the four per-batch
events, and every optimizer step uses the learning rate the loop was
entered with. -/
lemma trainLoop_tr_mem (env : Env M O) (e : ℕ) (l : List ℕ) (s : RunSt M O) :
    ∀ ev ∈ (trainLoop env e l s).2,
      ev = Ev.zeroGradEv ∨ ev = Ev.forwardEv ∨ ev = Ev.backwardEv ∨
      ev = Ev.optStepEv s.lr := by
  induction l generalizing s with
  | nil => intro ev h; simp [trainLoop] at h
  | cons i is ih =>
    intro ev h
    rw [trainLoop] at h
    simp only [List.mem_append] at h
    rcases h with h | h
    · simp only [trainBatch, List.mem_cons, List.mem_singleton] at h
      rcases h with h | h | h | h
      · exact Or.inl h
      · exact Or.inr (Or.inl h)
      · exact Or.inr (Or.inr (Or.inl h))
      · simp at h
        subst h
        exact Or.inr (Or.inr (Or.inr rfl))
    · have := ih (trainBatch env e i s).1 ev h
      rwa [trainBatch_lr] at this

lemma validLoop_tr (env : Env M O) (m : M) (l : List ℕ) (acc : ℚ × ℚ) :
    (validLoop env m l acc).2 = l.map Ev.valBatchEv := by
  induction l generalizing acc with
  | nil => rfl
  | cons i is ih => rw [validLoop, List.map_cons, ih]

lemma validLoop_fst (env : Env M O) (m : M) (l : List ℕ) (acc : ℚ × ℚ) :
    (validLoop env m l acc).1 =
      (acc.1 + (l.map (valLossOf env m)).sum, acc.2 + (l.map (valPsnrOf env m)).sum) := by
  induction l generalizing acc with
  | nil => simp [validLoop]
  | cons i is ih =>
    rw [validLoop, ih]
    simp only [List.map_cons, List.sum_cons, valLossOf, valPsnrOf, valDenoise]
    rw [Prod.mk.injEq]
    constructor <;> ring

/-- Trainer.valid on a non-empty validation loader: it returns the
state with only the mode flag flipped together with the two batch
averages, and its trace is the eval-mode switch, the no_grad region
and one event per validation batch. -/
lemma valid_of_ne (env : Env M O) (s : RunSt M O) (hv : env.valLen ≠ 0) :
    valid env s =
      (some ({ s with trainingMode := false },
        ((List.range env.valLen).map (valLossOf env s.params)).sum / (env.valLen : ℚ),
        ((List.range env.valLen).map (valPsnrOf env s.params)).sum / (env.valLen : ℚ)),
       Ev.evalModeEv :: Ev.noGradBeginEv ::
         (List.range env.valLen).map Ev.valBatchEv ++ [Ev.noGradEndEv]) := by
  unfold valid
  rw [if_neg hv]
  rw [validLoop_tr, validLoop_fst]
  simp

lemma valid_of_zero (env : Env M O) (s : RunSt M O) (hv : env.valLen = 0) :
    valid env s = (none, [Ev.evalModeEv, Ev.noGradBeginEv, Ev.noGradEndEv]) := by
  simp [valid, hv, validLoop]

lemma epochTrainSt_best (env : Env M O) (e : ℕ) (s : RunSt M O) :
    (epochTrainSt env e s).best_psnr = s.best_psnr := by
  unfold epochTrainSt
  rw [trainLoop_best]

lemma epochTrainSt_lr (env : Env M O) (e : ℕ) (s : RunSt M O) :
    (epochTrainSt env e s).lr = s.lr := by
  unfold epochTrainSt
  rw [trainLoop_lr]

/-- Characterization of one epoch on non-empty loaders (lines 92-132):
the result state is the averaged state with the mode flag cleared by
valid and best_psnr updated by the checkpoint rule, and the trace is
the epoch logger line, the train-mode switch, the batch events, one
scheduler step, the validation pass, the summary and tensorboard
lines, the checkpoint comparison and, if it fires, one save. -/
lemma runEpoch_char (env : Env M O) (e : ℕ) (s : RunSt M O)
    (ht : env.trainLen ≠ 0) (hv : env.valLen ≠ 0) :
    runEpoch env e s =
      (some { epochAvgSt env e s with
                trainingMode := false,
                best_psnr := (bestUpdate s.best_psnr (epochValPsnr env e s)).1 },
       Ev.epochLine e :: Ev.trainModeEv :: epochTrainTr env e s
         ++ [Ev.schedStepEv e (epochAvgSt env e s).lr]
         ++ (Ev.evalModeEv :: Ev.noGradBeginEv ::
              (List.range env.valLen).map Ev.valBatchEv ++ [Ev.noGradEndEv])
         ++ [Ev.summaryLineEv e (epochAvgSt env e s).train_loss
               (epochAvgSt env e s).train_psnr
               (epochValLoss env e s) (epochValPsnr env e s),
             Ev.tbScalarEv "Loss/train" (epochAvgSt env e s).train_loss e,
             Ev.tbScalarEv "Loss/val" (epochValLoss env e s) e,
             Ev.tbScalarEv "PSNR/train" (epochAvgSt env e s).train_psnr e,
             Ev.tbScalarEv "PSNR/val" (epochValPsnr env e s) e,
             Ev.compareEv e s.best_psnr (epochValPsnr env e s)]
         ++ (if s.best_psnr < epochValPsnr env e s then
               [Ev.saveCkptEv (epochAvgSt env e s).params (epochAvgSt env e s).opt e]
             else [])) := by
  have hb := epochTrainSt_best env e s
  simp only [runEpoch]
  rw [if_neg ht]
  rw [valid_of_ne env _ hv]
  simp only [epochAvgSt, epochTrainSt, epochTrainTr, epochValLoss, epochValPsnr,
    bestUpdate] at hb ⊢
  by_cases hlt :
      (trainLoop env e (List.range env.trainLen)
        { s with trainingMode := true, train_loss := 0, train_psnr := 0 }).1.best_psnr <
      ((List.range env.valLen).map
        (valPsnrOf env
          (trainLoop env e (List.range env.trainLen)
            { s with trainingMode := true, train_loss := 0, train_psnr := 0 }).1.params)).sum /
        (env.valLen : ℚ) <;>
    simp_all [apply_ite Prod.snd]

/-- With an empty training loader the epoch aborts at the division of
line 119, right after the scheduler step of line 117. -/
lemma runEpoch_trainLen_zero (env : Env M O) (e : ℕ) (s : RunSt M O)
    (ht : env.trainLen = 0) :
    runEpoch env e s =
      (none, [Ev.epochLine e, Ev.trainModeEv, Ev.schedStepEv e (schedulerStep e s.lr)]) := by
  simp [runEpoch, ht, trainLoop]

/-- With a non-empty training loader but an empty validation loader the
epoch aborts at the division of line 152, after the no_grad region of
valid has been exited. -/
lemma runEpoch_valLen_zero (env : Env M O) (e : ℕ) (s : RunSt M O)
    (ht : env.trainLen ≠ 0) (hv : env.valLen = 0) :
    runEpoch env e s =
      (none, Ev.epochLine e :: Ev.trainModeEv :: epochTrainTr env e s
        ++ [Ev.schedStepEv e (epochAvgSt env e s).lr]
        ++ [Ev.evalModeEv, Ev.noGradBeginEv, Ev.noGradEndEv]) := by
  simp only [runEpoch]
  rw [if_neg ht, valid_of_zero env _ hv]
  simp [epochTrainTr, epochAvgSt, epochTrainSt]

lemma runEpoch_some_inv (env : Env M O) (e : ℕ) (s : RunSt M O)
    (h : (runEpoch env e s).1.isSome = true) :
    env.trainLen ≠ 0 ∧ env.valLen ≠ 0 := by
  by_cases ht : env.trainLen = 0
  · rw [runEpoch_trainLen_zero env e s ht] at h
    simp at h
  · by_cases hv : env.valLen = 0
    · rw [runEpoch_valLen_zero env e s ht hv] at h
      simp at h
    · exact ⟨ht, hv⟩

/-- On non-empty loaders every epoch succeeds, so the whole run does. -/
lemma runFrom_isSome (env : Env M O) (ht : env.trainLen ≠ 0) (hv : env.valLen ≠ 0) :
    ∀ (k e : ℕ) (s : RunSt M O), (runFrom env e k s).1.isSome = true := by
  intro k
  induction k with
  | zero => intro e s; rfl
  | succ k ih =>
    intro e s
    rw [runFrom, runEpoch_char env e s ht hv]
    exact ih (e + 1) _

lemma trainTr_countP_zero (env : Env M O) (e : ℕ) (l : List ℕ) (s : RunSt M O)
    (p : Ev M O → Bool)
    (h1 : p Ev.zeroGradEv = false) (h2 : p Ev.forwardEv = false)
    (h3 : p Ev.backwardEv = false) (h4 : ∀ lr, p (Ev.optStepEv lr) = false) :
    (trainLoop env e l s).2.countP p = 0 := by
  rw [List.countP_eq_zero]
  intro a ha
  rcases trainLoop_tr_mem env e l s a ha with h | h | h | h <;>
    simp [h, h1, h2, h3, h4]

lemma countP_map_valBatch (p : Ev M O → Bool) (h : ∀ i, p (Ev.valBatchEv i) = false)
    (l : List ℕ) : (l.map Ev.valBatchEv).countP p = 0 := by
  rw [List.countP_eq_zero]
  intro a ha
  simp only [List.mem_map] at ha
  obtain ⟨i, _, rfl⟩ := ha
  simp [h i]

/-- A successful epoch writes exactly two logger lines (lines 93 and
122), exactly one of them the summary line. -/
lemma runEpoch_logger_counts (env : Env M O) (e : ℕ) (s : RunSt M O)
    (ht : env.trainLen ≠ 0) (hv : env.valLen ≠ 0) :
    (runEpoch env e s).2.countP isLoggerLine = 2 ∧
    (runEpoch env e s).2.countP isSummaryLine = 1 := by
  rw [runEpoch_char env e s ht hv]
  have hL : (epochTrainTr env e s).countP (isLoggerLine (M := M) (O := O)) = 0 := by
    unfold epochTrainTr
    exact trainTr_countP_zero env e _ _ _ rfl rfl rfl (fun _ => rfl)
  have hS : (epochTrainTr env e s).countP (isSummaryLine (M := M) (O := O)) = 0 := by
    unfold epochTrainTr
    exact trainTr_countP_zero env e _ _ _ rfl rfl rfl (fun _ => rfl)
  have hmL : ((List.range env.valLen).map Ev.valBatchEv).countP
      (isLoggerLine (M := M) (O := O)) = 0 :=
    countP_map_valBatch _ (fun _ => rfl) _
  have hmS : ((List.range env.valLen).map Ev.valBatchEv).countP
      (isSummaryLine (M := M) (O := O)) = 0 :=
    countP_map_valBatch _ (fun _ => rfl) _
  by_cases hsave : s.best_psnr < epochValPsnr env e s <;>
    constructor <;>
      simp [hsave, List.countP_append, List.countP_cons, hL, hS, hmL, hmS,
        isLoggerLine, isSummaryLine]

/-- On non-empty loaders a k-epoch tail of the run writes exactly 2k
logger lines, k of them summary lines. -/
lemma runFrom_counts (env : Env M O) (ht : env.trainLen ≠ 0) (hv : env.valLen ≠ 0) :
    ∀ (k e : ℕ) (s : RunSt M O),
      (runFrom env e k s).2.countP isLoggerLine = 2 * k ∧
      (runFrom env e k s).2.countP isSummaryLine = k := by
  intro k
  induction k with
  | zero => intro e s; exact ⟨rfl, rfl⟩
  | succ k ih =>
    intro e s
    obtain ⟨hl, hs⟩ := runEpoch_logger_counts env e s ht hv
    rw [runFrom]
    rcases hE : runEpoch env e s with ⟨r, tr⟩
    cases r with
    | none =>
      rw [runEpoch_char env e s ht hv] at hE
      cases hE
    | some s' =>
      rw [hE] at hl hs
      obtain ⟨ih1, ih2⟩ := ih (e + 1) s'
      simp only [List.countP_append]
      rw [hl, hs, ih1, ih2]
      omega

/-- A full run on non-empty loaders writes 1 + 2N logger lines for N
configured epochs, N of them summary lines. -/
lemma runTrain_counts (env : Env M O) (cfg : TrainConfig) (m : M) (o : O)
    (ht : env.trainLen ≠ 0) (hv : env.valLen ≠ 0) :
    (runTrain env cfg m o).2.countP isLoggerLine = 1 + 2 * cfg.epoch ∧
    (runTrain env cfg m o).2.countP isSummaryLine = cfg.epoch := by
  simp only [runTrain]
  obtain ⟨h1, h2⟩ := runFrom_counts env ht hv cfg.epoch 0 (initRunSt cfg m o)
  constructor
  · simp [List.countP_cons, isLoggerLine, h1]
    omega
  · simp [List.countP_cons, isSummaryLine, h2]

/-- Every optimizer step recorded during one epoch uses the learning
rate the epoch was entered with: the scheduler steps only after the
batch loop (line 117). -/
lemma runEpoch_opt_mem (env : Env M O) (e : ℕ) (s : RunSt M O) (lr : ℚ)
    (h : Ev.optStepEv lr ∈ (runEpoch env e s).2) : lr = s.lr := by
  by_cases ht : env.trainLen = 0
  · rw [runEpoch_trainLen_zero env e s ht] at h
    simp at h
  · have htr : ∀ hm : Ev.optStepEv lr ∈ epochTrainTr env e s, lr = s.lr := by
      intro hm
      unfold epochTrainTr at hm
      rcases trainLoop_tr_mem env e _ _ _ hm with h' | h' | h' | h' <;>
        simp_all
    by_cases hv : env.valLen = 0
    · rw [runEpoch_valLen_zero env e s ht hv] at h
      simp only [List.cons_append, List.mem_cons, List.mem_append,
        List.mem_singleton] at h
      rcases h with h | h | h | h | h <;> simp_all
    · rw [runEpoch_char env e s ht hv] at h
      by_cases hsave : s.best_psnr < epochValPsnr env e s <;>
        · simp only [hsave, if_pos, if_neg, if_true, if_false,
            List.cons_append, List.mem_cons, List.mem_append,
            List.mem_singleton, List.mem_map] at h
          rcases h with h | h | h | h <;> simp_all

/-- Every scheduler step recorded during one epoch is the single step
of line 117, installing the stepped rate for epoch e. -/
lemma runEpoch_sched_mem (env : Env M O) (e : ℕ) (s : RunSt M O) (e' : ℕ) (lr : ℚ)
    (h : Ev.schedStepEv e' lr ∈ (runEpoch env e s).2) :
    e' = e ∧ lr = schedulerStep e s.lr := by
  by_cases ht : env.trainLen = 0
  · rw [runEpoch_trainLen_zero env e s ht] at h
    simp at h
    tauto
  · have htr : ∀ hm : Ev.schedStepEv e' lr ∈ epochTrainTr env e s, False := by
      intro hm
      unfold epochTrainTr at hm
      rcases trainLoop_tr_mem env e _ _ _ hm with h' | h' | h' | h' <;>
        simp_all
    have hlr : (epochAvgSt env e s).lr = schedulerStep e s.lr := by
      simp [epochAvgSt, epochTrainSt_lr]
    by_cases hv : env.valLen = 0
    · rw [runEpoch_valLen_zero env e s ht hv] at h
      simp only [List.cons_append, List.mem_cons, List.mem_append,
        List.mem_singleton] at h
      rcases h with h | h | h | h | h <;> simp_all
    · rw [runEpoch_char env e s ht hv] at h
      by_cases hsave : s.best_psnr < epochValPsnr env e s <;>
        · simp only [hsave, if_pos, if_neg, if_true, if_false,
            List.cons_append, List.mem_cons, List.mem_append,
            List.mem_singleton, List.mem_map] at h
          rcases h with h | h | h | h <;> simp_all

lemma runEpoch_some_lr (env : Env M O) (e : ℕ) (s : RunSt M O) (s' : RunSt M O)
    (h : (runEpoch env e s).1 = some s') : s'.lr = schedulerStep e s.lr := by
  have hs := runEpoch_some_inv env e s (by rw [h]; rfl)
  rw [runEpoch_char env e s hs.1 hs.2] at h
  simp only [Option.some.injEq] at h
  subst h
  simp [epochAvgSt, epochTrainSt_lr]

/-- Every optimizer step of a run entered at epoch e with the scheduled
rate for e uses the scheduled rate of the epoch it belongs to. -/
lemma runFrom_opt_mem (env : Env M O) :
    ∀ (k e : ℕ) (s : RunSt M O) (lr : ℚ), s.lr = lrAt e →
      Ev.optStepEv lr ∈ (runFrom env e k s).2 →
      ∃ e', e ≤ e' ∧ e' < e + k ∧ lr = lrAt e' := by
  intro k
  induction k with
  | zero => intro e s lr _ h; simp [runFrom] at h
  | succ k ih =>
    intro e s lr hslr h
    rw [runFrom] at h
    rcases hE : runEpoch env e s with ⟨r, tr⟩
    rw [hE] at h
    cases r with
    | none =>
      have hm := runEpoch_opt_mem env e s lr (by rw [hE]; exact h)
      exact ⟨e, le_rfl, by omega, by rw [hm, hslr]⟩
    | some s' =>
      simp only [List.mem_append] at h
      rcases h with h | h
      · have hm := runEpoch_opt_mem env e s lr (by rw [hE]; exact h)
        exact ⟨e, le_rfl, by omega, by rw [hm, hslr]⟩
      · have hlr' : s'.lr = lrAt (e + 1) := by
          rw [runEpoch_some_lr env e s s' (by rw [hE]), hslr, lrAt_succ]
        obtain ⟨e', h1, h2, h3⟩ := ih (e + 1) s' lr hlr' h
        exact ⟨e', by omega, by omega, h3⟩

/-- Every scheduler step of a run entered at epoch e with the scheduled
rate installs the scheduled rate of the following epoch. -/
lemma runFrom_sched_mem (env : Env M O) :
    ∀ (k e : ℕ) (s : RunSt M O) (e'' : ℕ) (lr : ℚ), s.lr = lrAt e →
      Ev.schedStepEv e'' lr ∈ (runFrom env e k s).2 →
      e ≤ e'' ∧ e'' < e + k ∧ lr = lrAt (e'' + 1) := by
  intro k
  induction k with
  | zero => intro e s e'' lr _ h; simp [runFrom] at h
  | succ k ih =>
    intro e s e'' lr hslr h
    rw [runFrom] at h
    rcases hE : runEpoch env e s with ⟨r, tr⟩
    rw [hE] at h
    cases r with
    | none =>
      have hm := runEpoch_sched_mem env e s e'' lr (by rw [hE]; exact h)
      refine ⟨by omega, by omega, ?_⟩
      rw [hm.2, hslr, ← lrAt_succ, hm.1]
    | some s' =>
      simp only [List.mem_append] at h
      rcases h with h | h
      · have hm := runEpoch_sched_mem env e s e'' lr (by rw [hE]; exact h)
        refine ⟨by omega, by omega, ?_⟩
        rw [hm.2, hslr, ← lrAt_succ, hm.1]
      · have hlr' : s'.lr = lrAt (e + 1) := by
          rw [runEpoch_some_lr env e s s' (by rw [hE]), hslr, lrAt_succ]
        obtain ⟨h1, h2, h3⟩ := ih (e + 1) s' e'' lr hlr' h
        exact ⟨by omega, by omega, h3⟩

/-- In the default randga55 run every recorded optimizer step uses rate
0.001 or 0.0001, and the scheduler step closing epoch 99 installs
0.00001. -/
lemma runTrain_all_lrOk (env : Env M O) (m : M) (o : O) :
    ((runTrain env TRAIN_CFG_randga55 m o).2).all lrOk = true := by
  rw [List.all_eq_true]
  intro ev hev
  simp only [runTrain, List.mem_cons] at hev
  rcases hev with h | h
  · subst h; rfl
  · cases ev with
    | optStepEv lr =>
      obtain ⟨e', h1, h2, h3⟩ :=
        runFrom_opt_mem env TRAIN_CFG_randga55.epoch 0 (initRunSt TRAIN_CFG_randga55 m o)
          lr rfl h
      have he : e' < 100 := by
        have hep : TRAIN_CFG_randga55.epoch = 100 := rfl
        omega
      rw [lrAt_closed] at h3
      by_cases c1 : e' < 30
      · rw [if_pos c1] at h3
        simp [lrOk, h3]
      · rw [if_neg c1, if_pos he] at h3
        simp [lrOk, h3]
    | schedStepEv e'' lr =>
      obtain ⟨h1, h2, h3⟩ :=
        runFrom_sched_mem env TRAIN_CFG_randga55.epoch 0 (initRunSt TRAIN_CFG_randga55 m o)
          e'' lr rfl h
      by_cases c : e'' = 99
      · subst c
        rw [lrAt_closed] at h3
        norm_num at h3
        simp [lrOk, h3]
      · simp [lrOk, c]
    | startLine => rfl
    | epochLine e => rfl
    | trainModeEv => rfl
    | evalModeEv => rfl
    | noGradBeginEv => rfl
    | noGradEndEv => rfl
    | zeroGradEv => rfl
    | forwardEv => rfl
    | backwardEv => rfl
    | valBatchEv i => rfl
    | tbScalarEv tag v e => rfl
    | summaryLineEv e tl tp vl vp => rfl
    | compareEv e b vp => rfl
    | saveCkptEv p o' e => rfl

lemma bestFold_append_singleton (a : List ℚ) (x : ℚ) :
    bestFold (a ++ [x]) = (bestUpdate (bestFold a) x).1 := by
  unfold bestFold
  rw [List.foldl_append]
  rfl

/-- One step of the best_psnr evolution: appending epoch i applies the
per-epoch update of lines 130-131 when i is within the run. -/
lemma bestFold_take_succ (ps : List ℚ) (i : ℕ) :
    bestFold (ps.take (i + 1)) =
      if i < ps.length then (bestUpdate (bestFold (ps.take i)) (ps.getD i 0)).1
      else bestFold (ps.take i) := by
  by_cases h : i < ps.length
  · rw [if_pos h, List.take_succ]
    have hg : ps[i]? = some (ps.getD i 0) := by
      rw [List.getElem?_eq_getElem h, List.getD_eq_getElem ps 0 h]
    rw [hg]
    simp [bestFold_append_singleton]
  · rw [if_neg h]
    have h1 : ps.take (i + 1) = ps := List.take_of_length_le (by omega)
    have h2 : ps.take i = ps := List.take_of_length_le (by omega)
    rw [h1, h2]

lemma countP_flatten_replicate_zero (n : ℕ) (l : List CfgOp) (p : CfgOp → Bool)
    (h : l.countP p = 0) :
    ((List.replicate n l).flatten).countP p = 0 := by
  induction n with
  | zero => rfl
  | succ n ih =>
    rw [List.replicate_succ]
    simp [List.countP_append, h, ih]

lemma all_flatten_replicate (n : ℕ) (l : List CfgOp) (p : CfgOp → Bool)
    (h : l.all p = true) :
    ((List.replicate n l).flatten).all p = true := by
  induction n with
  | zero => rfl
  | succ n ih =>
    rw [List.replicate_succ]
    simp_all [List.all_append]

/-- On non-empty loaders, each of the k epochs of a run tail records
its scheduler step with the scheduled rate of the following epoch. -/
lemma runFrom_sched_exists (env : Env M O) (ht : env.trainLen ≠ 0) (hv : env.valLen ≠ 0) :
    ∀ (k e : ℕ) (s : RunSt M O), s.lr = lrAt e → ∀ j, j < k →
      Ev.schedStepEv (e + j) (lrAt (e + j + 1)) ∈ (runFrom env e k s).2 := by
  intro k
  induction k with
  | zero => intro e s _ j hj; omega
  | succ k ih =>
    intro e s hslr j hj
    rw [runFrom, runEpoch_char env e s ht hv]
    simp only [List.mem_append]
    have hlr : (epochAvgSt env e s).lr = lrAt (e + 1) := by
      simp [epochAvgSt, epochTrainSt_lr, hslr, lrAt_succ]
    rcases j with _ | j'
    · left
      simp [hlr]
    · right
      have h1 : e + (j' + 1) = e + 1 + j' := by omega
      rw [h1]
      exact ih (e + 1)
        { params := (epochAvgSt env e s).params, trainingMode := false,
          opt := (epochAvgSt env e s).opt, lr := (epochAvgSt env e s).lr,
          best_psnr := (bestUpdate s.best_psnr (epochValPsnr env e s)).1,
          train_loss := (epochAvgSt env e s).train_loss,
          train_psnr := (epochAvgSt env e s).train_psnr }
        hlr j' (by omega)

/-- A checkpoint save event (model parameters, optimizer state, epoch
index) is recorded in an epoch iff the strict comparison of line 130
succeeds; ties never save. -/
lemma runEpoch_save_mem_iff (env : Env M O) (e : ℕ) (s : RunSt M O)
    (ht : env.trainLen ≠ 0) (hv : env.valLen ≠ 0) :
    (∃ mp op, Ev.saveCkptEv mp op e ∈ (runEpoch env e s).2) ↔
      s.best_psnr < epochValPsnr env e s := by
  rw [runEpoch_char env e s ht hv]
  by_cases hsave : s.best_psnr < epochValPsnr env e s
  · rw [if_pos hsave]
    constructor
    · intro _
      exact hsave
    · intro _
      exact ⟨(epochAvgSt env e s).params, (epochAvgSt env e s).opt, by simp⟩
  · rw [if_neg hsave]
    constructor
    · rintro ⟨mp, op, hmem⟩
      exfalso
      have htr : ¬ Ev.saveCkptEv mp op e ∈ epochTrainTr env e s := by
        intro hm
        unfold epochTrainTr at hm
        rcases trainLoop_tr_mem env e _ _ _ hm with h' | h' | h' | h' <;> simp_all
      simp only [List.cons_append, List.mem_cons, List.mem_append, List.mem_singleton,
        List.mem_map, List.append_nil] at hmem
      rcases hmem with h | h <;> simp_all
    · intro h
      exact absurd h hsave

/-- Claim C1: for every run, given the per-epoch validation PSNRs ps,
a checkpoint (model parameters, optimizer state, epoch index) is
persisted at epoch i if and only if that epoch's validation PSNR
strictly exceeds the maximum of all earlier validation PSNRs together
with the initial best of 0 (line 91), so epoch 0 writes iff p 0 is
positive; a tie with the running best never triggers a write.
writesAt folds the per-epoch decision of lines 130-132, and within
each epoch of the run the save event fires exactly on the strict
comparison against best_psnr. -/
theorem checkpoint_written_iff_psnr_record (M O : Type) (ps : List ℚ) (i : ℕ) :
    (writesAt ps i = true ↔ (ps.take i).foldl max 0 < ps.getD i 0) ∧
    (∀ (env : Env M O) (e : ℕ) (s : RunSt M O),
      env.trainLen ≠ 0 → env.valLen ≠ 0 →
      ((∃ mp op, Ev.saveCkptEv mp op e ∈ (runEpoch env e s).2) ↔
        s.best_psnr < epochValPsnr env e s)) := by
  constructor
  · unfold writesAt
    rw [bestUpdate_snd, bestFold_eq, decide_eq_true_eq]
  · intro env e s ht hv
    exact runEpoch_save_mem_iff env e s ht hv

/-- Witness for the C1 theorem at a concrete epoch. -/
theorem checkpoint_written_iff_psnr_record_witness :
    (∃ mp op, Ev.saveCkptEv mp op 0 ∈ (runEpoch envC 0 stC).2) ↔
      stC.best_psnr < epochValPsnr envC 0 stC :=
  (checkpoint_written_iff_psnr_record Unit Unit [] 0).2 envC 0 stC (by decide) (by decide)

/-- Claim C2 (code bug): with an empty training loader the epoch does
not define its metrics as zero and skip the checkpoint comparison; the
division by len(train_loader) at line 119 raises, aborting the epoch
right after the scheduler step, with no summary and no comparison; an
empty validation loader likewise aborts at line 152. -/
theorem zero_batches_abort (env : Env M O) (e : ℕ) (s : RunSt M O) :
    (env.trainLen = 0 →
      runEpoch env e s =
        (none,
         [Ev.epochLine e, Ev.trainModeEv, Ev.schedStepEv e (schedulerStep e s.lr)]) ∧
      (runEpoch env e s).2.countP isSummaryLine = 0 ∧
      (runEpoch env e s).2.countP isCompare = 0) ∧
    (env.valLen = 0 → (runEpoch env e s).1 = none) := by
  constructor
  · intro ht
    refine ⟨runEpoch_trainLen_zero env e s ht, ?_, ?_⟩ <;>
      · rw [runEpoch_trainLen_zero env e s ht]
        rfl
  · intro hv
    by_cases ht : env.trainLen = 0
    · rw [runEpoch_trainLen_zero env e s ht]
    · rw [runEpoch_valLen_zero env e s ht hv]

/-- Witness for the C2 theorem at a concrete empty-loader run. -/
theorem zero_batches_abort_witness :
    runEpoch envE 0 stC =
      (none, [Ev.epochLine 0, Ev.trainModeEv, Ev.schedStepEv 0 (schedulerStep 0 stC.lr)]) :=
  ((zero_batches_abort envE 0 stC).1 rfl).1

/-- Claim C3: for the default configuration (milestones [30, 100],
decay 0.1, initial rate 0.001) the effective learning rate of training
epoch e is 0.001 for epochs 0-29, 0.0001 for epochs 30-99 and 0.00001
from epoch 100 on, a deterministic stateless function of the epoch
index, changing only when the post-epoch scheduler step crosses a
milestone. -/
theorem lr_schedule_default (e : ℕ) :
    lrAt e = (if e < 30 then 1/1000 else if e < 100 then 1/10000 else 1/100000 : ℚ) ∧
    lrAt (e + 1) = (if e + 1 ∈ MILESTONES then lrAt e * GAMMA else lrAt e) :=
  ⟨lrAt_closed e, rfl⟩

/-- Claim C4: every training batch clears the accumulated gradients,
computes the predicted residual from (input image, auxiliary volume),
forms the denoised image as input minus residual, takes the MSE loss
of the denoised image against the target, backpropagates and applies
exactly one optimizer step; the whole-batch scalar loss and the PSNR
of the first batch item only are added to the accumulators. -/
theorem train_batch_step (env : Env M O) (e i : ℕ) (s : RunSt M O) :
    (trainBatch env e i s).2 =
      [Ev.zeroGradEv, Ev.forwardEv, Ev.backwardEv, Ev.optStepEv s.lr] ∧
    (trainBatch env e i s).2.countP isOptStep = 1 ∧
    (trainBatch env e i s).1.train_loss =
      s.train_loss +
        mseLoss
          (tSub (env.trainBatches e i).input_im
            (env.forward s.trainingMode s.params (env.trainBatches e i).input_im
              (env.trainBatches e i).input_vol))
          (env.trainBatches e i).target_im ∧
    (trainBatch env e i s).1.train_psnr =
      s.train_psnr +
        env.psnrI (env.trainBatches e i).target_im.headI
          (tSub (env.trainBatches e i).input_im
            (env.forward s.trainingMode s.params (env.trainBatches e i).input_im
              (env.trainBatches e i).input_vol)).headI ∧
    (trainBatch env e i s).1.params =
      (env.optUpdate s.params s.opt s.lr (env.trainBatches e i)).1 ∧
    (trainBatch env e i s).1.opt =
      (env.optUpdate s.params s.opt s.lr (env.trainBatches e i)).2 ∧
    (trainBatch env e i s).1.best_psnr = s.best_psnr :=
  ⟨rfl, rfl, rfl, rfl, rfl, rfl, rfl⟩

/-- Claim C5: the validation pass switches the model to eval mode,
runs every validation batch inside the no_grad region, and returns the
MSE loss and the PSNR averaged over the number of validation batches;
it mutates neither the parameters, the optimizer state, the best PSNR
nor the training accumulators, and its trace contains no gradient or
optimizer or scheduler event. -/
theorem validation_pass_contract (env : Env M O) (s : RunSt M O) (hv : env.valLen ≠ 0) :
    ∃ (s' : RunSt M O) (vl vp : ℚ),
      valid env s =
        (some (s', vl, vp),
         Ev.evalModeEv :: Ev.noGradBeginEv ::
           (List.range env.valLen).map Ev.valBatchEv ++ [Ev.noGradEndEv]) ∧
      s'.params = s.params ∧ s'.opt = s.opt ∧ s'.lr = s.lr ∧
      s'.best_psnr = s.best_psnr ∧ s'.train_loss = s.train_loss ∧
      s'.train_psnr = s.train_psnr ∧ s'.trainingMode = false ∧
      vl = ((List.range env.valLen).map (valLossOf env s.params)).sum / (env.valLen : ℚ) ∧
      vp = ((List.range env.valLen).map (valPsnrOf env s.params)).sum / (env.valLen : ℚ) ∧
      (valid env s).2.countP isOptStep = 0 ∧
      (valid env s).2.countP isSchedStep = 0 := by
  have hO : ((List.range env.valLen).map Ev.valBatchEv).countP
      (isOptStep (M := M) (O := O)) = 0 :=
    countP_map_valBatch _ (fun _ => rfl) _
  have hS : ((List.range env.valLen).map Ev.valBatchEv).countP
      (isSchedStep (M := M) (O := O)) = 0 :=
    countP_map_valBatch _ (fun _ => rfl) _
  refine ⟨{ s with trainingMode := false }, _, _,
    valid_of_ne env s hv, rfl, rfl, rfl, rfl, rfl, rfl, rfl, rfl, rfl, ?_, ?_⟩ <;>
    · rw [valid_of_ne env s hv]
      simp [List.countP_append, List.countP_cons, hO, hS, isOptStep, isSchedStep]

/-- Witness for the C5 theorem at a concrete one-batch validation. -/
theorem validation_pass_contract_witness :
    ∃ (s' : RunSt Unit Unit) (vl vp : ℚ),
      valid envC stC =
        (some (s', vl, vp),
         Ev.evalModeEv :: Ev.noGradBeginEv ::
           (List.range envC.valLen).map Ev.valBatchEv ++ [Ev.noGradEndEv]) ∧
      s'.params = stC.params ∧ s'.opt = stC.opt ∧ s'.lr = stC.lr ∧
      s'.best_psnr = stC.best_psnr ∧ s'.train_loss = stC.train_loss ∧
      s'.train_psnr = stC.train_psnr ∧ s'.trainingMode = false ∧
      vl = ((List.range envC.valLen).map (valLossOf envC stC.params)).sum / (envC.valLen : ℚ) ∧
      vp = ((List.range envC.valLen).map (valPsnrOf envC stC.params)).sum / (envC.valLen : ℚ) ∧
      (valid envC stC).2.countP isOptStep = 0 ∧
      (valid envC stC).2.countP isSchedStep = 0 :=
  validation_pass_contract envC stC (by decide)

/-- Claim C6: best_psnr is initialized to 0 (line 91) and never
decreases: appending an epoch either leaves it unchanged or replaces
it with that epoch's strictly larger validation PSNR, both over
arbitrary PSNR sequences and for each successful epoch of the run. -/
theorem best_psnr_monotone (M O : Type) :
    (∀ (cfg : TrainConfig) (m : M) (o : O), (initRunSt cfg m o).best_psnr = 0) ∧
    (∀ (ps : List ℚ) (i : ℕ), bestFold (ps.take i) ≤ bestFold (ps.take (i + 1))) ∧
    (∀ (ps : List ℚ) (i : ℕ),
      bestFold (ps.take (i + 1)) = bestFold (ps.take i) ∨
      (bestFold (ps.take (i + 1)) = ps.getD i 0 ∧ bestFold (ps.take i) < ps.getD i 0)) ∧
    (∀ (env : Env M O) (e : ℕ) (s : RunSt M O),
      env.trainLen ≠ 0 → env.valLen ≠ 0 →
      ∃ s', (runEpoch env e s).1 = some s' ∧
        s.best_psnr ≤ s'.best_psnr ∧
        (s'.best_psnr = s.best_psnr ∨
          (s'.best_psnr = epochValPsnr env e s ∧ s.best_psnr < epochValPsnr env e s))) := by
  refine ⟨fun _ _ _ => rfl, ?_, ?_, ?_⟩
  · intro ps i
    rw [bestFold_take_succ]
    by_cases h : i < ps.length
    · rw [if_pos h, bestUpdate_fst]
      exact le_max_left _ _
    · rw [if_neg h]
  · intro ps i
    rw [bestFold_take_succ]
    by_cases h : i < ps.length
    · rw [if_pos h]
      unfold bestUpdate
      by_cases hlt : bestFold (ps.take i) < ps.getD i 0
      · right
        rw [if_pos hlt]
        exact ⟨rfl, hlt⟩
      · left
        rw [if_neg hlt]
    · left
      rw [if_neg h]
  · intro env e s ht hv
    refine ⟨{ epochAvgSt env e s with
        trainingMode := false,
        best_psnr := (bestUpdate s.best_psnr (epochValPsnr env e s)).1 },
      by rw [runEpoch_char env e s ht hv], ?_, ?_⟩
    · show s.best_psnr ≤ (bestUpdate s.best_psnr (epochValPsnr env e s)).1
      rw [bestUpdate_fst]
      exact le_max_left _ _
    · show (bestUpdate s.best_psnr (epochValPsnr env e s)).1 = s.best_psnr ∨ _
      unfold bestUpdate
      by_cases hlt : s.best_psnr < epochValPsnr env e s
      · right
        rw [if_pos hlt]
        exact ⟨rfl, hlt⟩
      · left
        rw [if_neg hlt]

/-- Witness for the C6 theorem on a concrete successful epoch. -/
theorem best_psnr_monotone_witness :
    ∃ s', (runEpoch envC 0 stC).1 = some s' ∧
      stC.best_psnr ≤ s'.best_psnr ∧
      (s'.best_psnr = stC.best_psnr ∨
        (s'.best_psnr = epochValPsnr envC 0 stC ∧ stC.best_psnr < epochValPsnr envC 0 stC)) :=
  (best_psnr_monotone Unit Unit).2.2.2 envC 0 stC (by decide) (by decide)

/-- Claim C7: in a successful epoch the checkpoint comparison happens
exactly once, strictly after the validation pass has completed, and
the value compared against best_psnr is the freshly computed
validation PSNR of that epoch (the same value logged as val_psnr) and
not the training PSNR. -/
theorem compare_once_after_validation (env : Env M O) (e : ℕ) (s : RunSt M O)
    (ht : env.trainLen ≠ 0) (hv : env.valLen ≠ 0) :
    ∃ (s' : RunSt M O) (a b : List (Ev M O)),
      runEpoch env e s =
        (some s', a ++ Ev.compareEv e s.best_psnr (epochValPsnr env e s) :: b) ∧
      a.countP isCompare = 0 ∧ b.countP isCompare = 0 ∧
      Ev.noGradEndEv ∈ a ∧
      Ev.summaryLineEv e (epochAvgSt env e s).train_loss (epochAvgSt env e s).train_psnr
        (epochValLoss env e s) (epochValPsnr env e s) ∈ a := by
  have hc : (epochTrainTr env e s).countP (isCompare (M := M) (O := O)) = 0 := by
    unfold epochTrainTr
    exact trainTr_countP_zero env e _ _ _ rfl rfl rfl (fun _ => rfl)
  have hm : ((List.range env.valLen).map Ev.valBatchEv).countP
      (isCompare (M := M) (O := O)) = 0 :=
    countP_map_valBatch _ (fun _ => rfl) _
  refine ⟨{ epochAvgSt env e s with
      trainingMode := false,
      best_psnr := (bestUpdate s.best_psnr (epochValPsnr env e s)).1 },
    Ev.epochLine e :: Ev.trainModeEv :: epochTrainTr env e s
      ++ [Ev.schedStepEv e (epochAvgSt env e s).lr]
      ++ (Ev.evalModeEv :: Ev.noGradBeginEv ::
           (List.range env.valLen).map Ev.valBatchEv ++ [Ev.noGradEndEv])
      ++ [Ev.summaryLineEv e (epochAvgSt env e s).train_loss (epochAvgSt env e s).train_psnr
            (epochValLoss env e s) (epochValPsnr env e s),
          Ev.tbScalarEv "Loss/train" (epochAvgSt env e s).train_loss e,
          Ev.tbScalarEv "Loss/val" (epochValLoss env e s) e,
          Ev.tbScalarEv "PSNR/train" (epochAvgSt env e s).train_psnr e,
          Ev.tbScalarEv "PSNR/val" (epochValPsnr env e s) e],
    (if s.best_psnr < epochValPsnr env e s then
       [Ev.saveCkptEv (epochAvgSt env e s).params (epochAvgSt env e s).opt e]
     else []),
    ?_, ?_, ?_, ?_, ?_⟩
  · rw [runEpoch_char env e s ht hv]
    simp [List.append_assoc]
  · simp [List.countP_append, List.countP_cons, hc, hm, isCompare]
  · by_cases hsave : s.best_psnr < epochValPsnr env e s <;>
      simp [hsave, isCompare]
  · simp
  · simp

/-- Witness for the C7 theorem on a concrete successful epoch. -/
theorem compare_once_after_validation_witness :
    ∃ (s' : RunSt Unit Unit) (a b : List (Ev Unit Unit)),
      runEpoch envC 0 stC =
        (some s', a ++ Ev.compareEv 0 stC.best_psnr (epochValPsnr envC 0 stC) :: b) ∧
      a.countP isCompare = 0 ∧ b.countP isCompare = 0 ∧
      Ev.noGradEndEv ∈ a ∧
      Ev.summaryLineEv 0 (epochAvgSt envC 0 stC).train_loss (epochAvgSt envC 0 stC).train_psnr
        (epochValLoss envC 0 stC) (epochValPsnr envC 0 stC) ∈ a :=
  compare_once_after_validation envC 0 stC (by decide) (by decide)

/-- Claim C8: among all observable configuration accesses of a run of
any length there is exactly one mutation, it targets the log-directory
field, it happens before training starts, and the configuration
actually used agrees with the static randga55 table entry on every
field except the redirected log directory. -/
theorem config_mutated_once (n : ℕ) (d : String) :
    (runCfgOps n).countP CfgOp.isWriteOp = 1 ∧
    ((runCfgOps n).all
        (fun op => !op.isWriteOp || (op == CfgOp.writeAt CfgField.log_dirF))) = true ∧
    (∃ a b, runCfgOps n = a ++ CfgOp.startMark :: b ∧
        a.countP CfgOp.isWriteOp = 1 ∧ b.countP CfgOp.isWriteOp = 0 ∧
        CfgOp.startMark ∉ a) ∧
    (resolvedCfg d).log_dir = d ∧
    (resolvedCfg d).epoch = TRAIN_CFG_randga55.epoch ∧
    (resolvedCfg d).batch_size = TRAIN_CFG_randga55.batch_size ∧
    (resolvedCfg d).learning_rate = TRAIN_CFG_randga55.learning_rate ∧
    (resolvedCfg d).train_dir = TRAIN_CFG_randga55.train_dir ∧
    (resolvedCfg d).test_orig_dir = TRAIN_CFG_randga55.test_orig_dir ∧
    (resolvedCfg d).test_noise_dir = TRAIN_CFG_randga55.test_noise_dir := by
  have hj : ((List.replicate n epochCfgOps).flatten).countP CfgOp.isWriteOp = 0 :=
    countP_flatten_replicate_zero n _ _ rfl
  have hja : ((List.replicate n epochCfgOps).flatten).all
      (fun op => !op.isWriteOp || (op == CfgOp.writeAt CfgField.log_dirF)) = true :=
    all_flatten_replicate n _ _ rfl
  refine ⟨?_, ?_, ⟨initCfgOps,
      trainPreCfgOps ++ (List.replicate n epochCfgOps).flatten, ?_, rfl, ?_, by decide⟩,
    rfl, rfl, rfl, rfl, rfl, rfl, rfl⟩
  · rw [runCfgOps]
    simp only [List.countP_append, hj]
    rfl
  · rw [runCfgOps]
    simp only [List.all_append, hja]
    rfl
  · rw [runCfgOps]
    simp [List.append_assoc]
  · simp only [List.countP_append, hj]
    rfl

/-- Claim C9 (amended): on non-empty loaders the plain-text logger
receives exactly two lines per epoch, the epoch-number line of line 93
and the summary line of line 122, plus the single start-of-run marker
of line 88: a run of N epochs writes 1 + 2N lines, N of which are
summary lines. -/
theorem logger_lines_per_epoch (env : Env M O) (cfg : TrainConfig) (m : M) (o : O)
    (ht : env.trainLen ≠ 0) (hv : env.valLen ≠ 0) :
    (runTrain env cfg m o).2.countP isLoggerLine = 1 + 2 * cfg.epoch ∧
    (runTrain env cfg m o).2.countP isSummaryLine = cfg.epoch :=
  runTrain_counts env cfg m o ht hv

/-- Witness for the amended C9 theorem at the concrete 3-epoch run. -/
theorem logger_lines_per_epoch_witness :
    (runTrain envC cfg3 () ()).2.countP isLoggerLine = 1 + 2 * cfg3.epoch ∧
    (runTrain envC cfg3 () ()).2.countP isSummaryLine = cfg3.epoch :=
  logger_lines_per_epoch envC cfg3 () () (by decide) (by decide)

/-- Counterexample to claim C9 as stated: the concrete run of 3 epochs
writes 7 lines to the plain-text logger, not 3 (only the 3 summary
lines match the claimed count). -/
theorem logger_lines_three_epochs_cex :
    (runTrain envC cfg3 () ()).2.countP isLoggerLine = 7 ∧
    (runTrain envC cfg3 () ()).2.countP isLoggerLine ≠ 3 ∧
    (runTrain envC cfg3 () ()).2.countP isSummaryLine = 3 := by
  obtain ⟨h1, h2⟩ := runTrain_counts envC cfg3 () () (by decide) (by decide)
  have he : cfg3.epoch = 3 := rfl
  rw [he] at h1 h2
  refine ⟨by rw [h1], by rw [h1]; norm_num, h2⟩

/-- Claim C10: in the default randga55 run (100 epochs, milestones 30
and 100) every optimizer step uses rate 0.001 or 0.0001 and the third
stage 0.00001 is installed only by the scheduler step that closes the
final epoch 99, after that epoch's last training batch; within any
epoch the single scheduler step comes after every optimizer step. -/
theorem third_lr_stage_never_used (env : Env M O) (m : M) (o : O) (e : ℕ) (s : RunSt M O)
    (ht : env.trainLen ≠ 0) (hv : env.valLen ≠ 0) :
    ((runTrain env TRAIN_CFG_randga55 m o).2).all lrOk = true ∧
    lrAt 100 = 1/100000 ∧
    Ev.schedStepEv 99 (lrAt 100) ∈ (runTrain env TRAIN_CFG_randga55 m o).2 ∧
    (∃ a b : List (Ev M O),
      (runEpoch env e s).2 =
        a ++ Ev.schedStepEv e (schedulerStep e (epochTrainSt env e s).lr) :: b ∧
      a.countP isSchedStep = 0 ∧ b.countP isSchedStep = 0 ∧ b.countP isOptStep = 0) := by
  have hSch : (epochTrainTr env e s).countP (isSchedStep (M := M) (O := O)) = 0 := by
    unfold epochTrainTr
    exact trainTr_countP_zero env e _ _ _ rfl rfl rfl (fun _ => rfl)
  have hmS : ((List.range env.valLen).map Ev.valBatchEv).countP
      (isSchedStep (M := M) (O := O)) = 0 :=
    countP_map_valBatch _ (fun _ => rfl) _
  have hmO : ((List.range env.valLen).map Ev.valBatchEv).countP
      (isOptStep (M := M) (O := O)) = 0 :=
    countP_map_valBatch _ (fun _ => rfl) _
  have hlr : (epochAvgSt env e s).lr = schedulerStep e (epochTrainSt env e s).lr := by
    simp [epochAvgSt]
  refine ⟨runTrain_all_lrOk env m o, by rw [lrAt_closed]; norm_num, ?_, ?_⟩
  · have hmem := runFrom_sched_exists env ht hv TRAIN_CFG_randga55.epoch 0
      (initRunSt TRAIN_CFG_randga55 m o) rfl 99 (by decide)
    simp only [runTrain, List.mem_cons]
    right
    simpa using hmem
  · refine ⟨Ev.epochLine e :: Ev.trainModeEv :: epochTrainTr env e s,
      (Ev.evalModeEv :: Ev.noGradBeginEv ::
        (List.range env.valLen).map Ev.valBatchEv ++ [Ev.noGradEndEv])
      ++ [Ev.summaryLineEv e (epochAvgSt env e s).train_loss (epochAvgSt env e s).train_psnr
            (epochValLoss env e s) (epochValPsnr env e s),
          Ev.tbScalarEv "Loss/train" (epochAvgSt env e s).train_loss e,
          Ev.tbScalarEv "Loss/val" (epochValLoss env e s) e,
          Ev.tbScalarEv "PSNR/train" (epochAvgSt env e s).train_psnr e,
          Ev.tbScalarEv "PSNR/val" (epochValPsnr env e s) e,
          Ev.compareEv e s.best_psnr (epochValPsnr env e s)]
      ++ (if s.best_psnr < epochValPsnr env e s then
            [Ev.saveCkptEv (epochAvgSt env e s).params (epochAvgSt env e s).opt e]
          else []),
      ?_, ?_, ?_, ?_⟩
    · rw [runEpoch_char env e s ht hv, ← hlr]
      simp [List.append_assoc]
    · simp [List.countP_append, List.countP_cons, hSch, isSchedStep]
    · by_cases hsave : s.best_psnr < epochValPsnr env e s <;>
        simp [hsave, List.countP_append, List.countP_cons, hmS, isSchedStep]
    · by_cases hsave : s.best_psnr < epochValPsnr env e s <;>
        simp [hsave, List.countP_append, List.countP_cons, hmO, isOptStep]

/-- Witness for the C10 theorem at a concrete environment. -/
theorem third_lr_stage_never_used_witness :
    ((runTrain envC TRAIN_CFG_randga55 () ()).2).all lrOk = true ∧
    lrAt 100 = 1/100000 ∧
    Ev.schedStepEv 99 (lrAt 100) ∈ (runTrain envC TRAIN_CFG_randga55 () ()).2 ∧
    (∃ a b : List (Ev Unit Unit),
      (runEpoch envC 0 stC).2 =
        a ++ Ev.schedStepEv 0 (schedulerStep 0 (epochTrainSt envC 0 stC).lr) :: b ∧
      a.countP isSchedStep = 0 ∧ b.countP isSchedStep = 0 ∧ b.countP isOptStep = 0) :=
  third_lr_stage_never_used envC () () 0 stC (by decide) (by decide)

end HsidTrain
